import Mathlib

/-!
A shallow embedding of the greplin-exception-catcher AppEngine server
(src/server/server.py): the datastore records (Project, LoggedErrorV2,
LoggedErrorInstanceV2, Queue), the memcache, the aggregation of incoming
error reports into LoggedErrorV2 groups (putException /
getAggregatedError), the read-time join behind the error list
(getErrors / filterErrors), the resolve action (ResolvePage), the
trailing-window stats (StatPage) and the queue worker (ReportWorker).
GAE entity keys are modelled by explicit natural-number ids and the
parent relation by a stored id / project name; datetimes are integer
Unix seconds (the source builds them with datetime.fromtimestamp on an
integer and only compares, takes min, and subtracts timedeltas).
-/

/-- Characterwise truncation, modelling the Python slice s[:n]. -/
def takeChars (n : Nat) (s : String) : String := String.mk (s.data.take n)

/-- Length in characters, modelling Python len(s). -/
def strLen (s : String) : Nat := s.data.length

/-- Modelling the Python s.replace from a newline to a space: the pattern
is a single character, so the replacement is a character map. -/
def collapseNewlines (s : String) : String :=
  String.mk (s.data.map (fun c => if c = '\n' then ' ' else c))

/-- Decimal parser over a digit list; helper for parseInt?. -/
def parseNatDigits (cs : List Char) : Option Nat :=
  if cs.isEmpty then none
  else cs.foldl (fun acc? c =>
    acc?.bind (fun acc => if c.isDigit then some (acc * 10 + (c.toNat - 48)) else none)) (some 0)

/-- Modelling Python int(s) on a decimal string literal: none when the
string does not parse (which in the source raises ValueError). -/
def parseInt? (s : String) : Option Int :=
  match s.data with
  | '-' :: rest => (parseNatDigits rest).map (fun n => -(n : Int))
  | cs => (parseNatDigits cs).map (fun n => (n : Int))

/-- Modelling Python str.split with no argument: split on whitespace
runs, dropping empty tokens; acc holds the current token reversed. -/
def wsSplitAux : List Char → List Char → List String
  | [], [] => []
  | [], acc => [String.mk acc.reverse]
  | c :: t, acc =>
    if c.isWhitespace then
      match acc with
      | [] => wsSplitAux t []
      | _ :: _ => String.mk acc.reverse :: wsSplitAux t []
    else wsSplitAux t (c :: acc)

def wsSplit (s : String) : List String := wsSplitAux s.data []

/-- Modelled from the spec: the backtrace-normalization function
(backtrace.normalizeBacktrace lives in the repository's backtrace
module, which is not under src) is per the spec an opaque pure function
mapping equivalent traces to one canonical text; the md5 hex digest used
by generateHash (hashlib, an external library) is likewise an opaque
pure digest, collision-resistant but not collision-free.

render models the string interpolation of a Project model instance at
line 248 of the source: db.Model defines no custom string form, so each
rendering is the default object repr of a fresh entity instance,
identified here by an instantiation counter. The program guarantees
nothing about these strings - a rendering may or may not repeat across
calls, as object addresses can be reused - so render is an arbitrary
function of the counter. -/
structure ExtEnv where
  normalize : String → String
  md5hex : String → String
  render : Nat → String

/-- server.py generateHash: md5 hexdigest fed the encoded exception type
followed by the normalized backtrace. -/
def generateHash (ev : ExtEnv) (exceptionType backtraceText : String) : String :=
  ev.md5hex (exceptionType ++ ev.normalize backtraceText)

/-- Model for a logged error (class LoggedErrorV2). id stands for the
datastore key, project for the parent Project key name. -/
structure LoggedErrorV2 where
  id : Nat
  project : String
  backtrace : String
  type : String
  hash : String
  active : Bool
  count : Nat
  level : Nat
  firstOccurrence : Int
  lastOccurrence : Int
  lastMessage : String
  environments : List String
  servers : List String
deriving DecidableEq

/-- The structured context blob of a report: dump stands for its JSON
serialization, userId for the raw value at the userId key if present. -/
structure ContextBlob where
  dump : String
  userId : Option String
deriving DecidableEq

/-- Model for each occurrence of an error (class LoggedErrorInstanceV2);
parent is the id of the owning LoggedErrorV2. -/
structure LoggedErrorInstanceV2 where
  parent : Nat
  environment : String
  date : Int
  message : String
  server : String
  logMessage : Option String
  context : Option String
  affectedUser : Option Int
deriving DecidableEq

/-- An ingestion payload as decoded from JSON. none marks a missing key
(a KeyError in the source); message may be present but null. -/
structure Exc where
  backtrace : Option String
  environment : Option String
  message : Option (Option String)
  project : Option String
  serverName : Option String
  timestamp : Option Int
  type : Option String
  logMessage : Option String
  context : Option ContextBlob
deriving DecidableEq

inductive MErr where
  | malformedReport
deriving DecidableEq

/-- The mutable world: the datastore tables, the memcache and the task
queue. Aggregator memcache entries are keyed by the pair of the
line-248 rendering of the Project entity and the hash. nextId supplies
fresh LoggedErrorV2 keys; tick counts Project-entity stringifications
and feeds render. -/
structure ServerState where
  projects : List String
  groups : List LoggedErrorV2
  instances : List LoggedErrorInstanceV2
  cache : List ((String × String) × LoggedErrorV2)
  queue : List (Nat × Exc)
  nextId : Nat
  tick : Nat
deriving DecidableEq

def initState : ServerState := ⟨[], [], [], [], [], 0, 0⟩

def keyMatch (a b : String × String) : Bool := a.1 == b.1 && a.2 == b.2

def cacheGet (c : List ((String × String) × LoggedErrorV2)) (k : String × String) :
    Option LoggedErrorV2 :=
  (c.find? (fun e => keyMatch e.1 k)).map (fun e => e.2)

def cacheSet (c : List ((String × String) × LoggedErrorV2)) (k : String × String)
    (g : LoggedErrorV2) : List ((String × String) × LoggedErrorV2) :=
  (k, g) :: c.filter (fun e => !keyMatch e.1 k)

def cacheDel (c : List ((String × String) × LoggedErrorV2)) (k : String × String) :
    List ((String × String) × LoggedErrorV2) :=
  c.filter (fun e => !keyMatch e.1 k)

/-- Datastore put of a group entity: overwrite by key, insert if new. -/
def putGroup (gs : List LoggedErrorV2) (g : LoggedErrorV2) : List LoggedErrorV2 :=
  if gs.any (fun x => x.id == g.id) then gs.map (fun x => if x.id == g.id then g else x)
  else gs ++ [g]

/-- server.py getProject. The memcache key it reads is never written
anywhere in the file, so the cache branch always misses and the function
is Project.get_or_insert(name). -/
def getProject (s : ServerState) (name : String) : ServerState × String :=
  (if name ∈ s.projects then s else { s with projects := name :: s.projects }, name)

/-- Lines 244-258 of getAggregatedError: look the report up in the
memcache under the key computed at line 248 (the rendering of the fresh
Project entity joined with the hash), accepting a hit with no backtrace
re-check; on a miss, query the active groups of the project (the
ancestor query resolves the entity to its key name) with this hash and
scan for the first one whose normalized backtrace equals the report's. -/
def lookupError (ev : ExtEnv) (cache : List ((String × String) × LoggedErrorV2))
    (groups : List LoggedErrorV2) (cacheKey : String × String)
    (proj errorHash backtraceText : String) : Option LoggedErrorV2 :=
  match cacheGet cache cacheKey with
  | some error => some error
  | none =>
    (groups.filter (fun g => g.project == proj && g.hash == errorHash && g.active)).find?
      (fun g => ev.normalize g.backtrace == ev.normalize backtraceText)

/-- Lines 261-271 of getAggregatedError: the in-place update of a found
group. lastOccurrence, backtrace and lastMessage are overwritten only
when the incoming timestamp is strictly newer. -/
def mergeError (environment server backtraceText message : String) (timestamp : Int)
    (error : LoggedErrorV2) : LoggedErrorV2 :=
  let error := { error with
    count := error.count + 1
    firstOccurrence := min error.firstOccurrence timestamp }
  let error := if error.lastOccurrence < timestamp then
      { error with lastOccurrence := timestamp, backtrace := backtraceText,
                   lastMessage := takeChars 300 message }
    else error
  let error := if environment ∈ error.environments then error
    else { error with environments := error.environments ++ [environment] }
  if server ∈ error.servers then error
  else { error with servers := error.servers ++ [server] }

/-- server.py getAggregatedError: resolve the project, build the
memcache key from the fresh entity's rendering at line 248, look the
group up, and on a hit merge, put, and write the snapshot back to the
memcache under that same per-call key (line 273 reuses the line-248
variable). -/
def getAggregatedError (ev : ExtEnv) (s : ServerState)
    (project environment server backtraceText errorHash message : String)
    (timestamp : Int) : ServerState × Option LoggedErrorV2 :=
  let sp := getProject s project
  let key := (ev.render sp.1.tick, errorHash)
  let s := { sp.1 with tick := sp.1.tick + 1 }
  match lookupError ev s.cache s.groups key sp.2 errorHash backtraceText with
  | none => (s, none)
  | some error0 =>
    let error := mergeError environment server backtraceText message timestamp error0
    ({ s with groups := putGroup s.groups error, cache := cacheSet s.cache key error },
     some error)

/-- Lines 293-307 of putException: the fresh group created when no match
was found. The type label has newlines collapsed, is truncated to 500
characters, and the (no-op) newline collapse is applied again. -/
def freshGroup (gid : Nat) (proj backtraceText exceptionType errorHash message
    environment server : String) (timestamp : Int) : LoggedErrorV2 :=
  let t1 := collapseNewlines exceptionType
  let t2 := if strLen t1 > 500 then takeChars 500 t1 else t1
  { id := gid, project := proj, backtrace := backtraceText,
    type := collapseNewlines t2, hash := errorHash, active := true, count := 1,
    level := 30, firstOccurrence := timestamp, lastOccurrence := timestamp,
    lastMessage := takeChars 300 message, environments := [environment],
    servers := [server] }

def freshInstance (parent : Nat) (environment : String) (timestamp : Int)
    (message server : String) (logMessage : Option String) (context : Option String)
    (affectedUser : Option Int) : LoggedErrorInstanceV2 :=
  { parent := parent, environment := environment, date := timestamp,
    message := message, server := server, logMessage := logMessage,
    context := context, affectedUser := affectedUser }

/-- Lines 309-320 of putException: build and put the occurrence. When a
context blob carries a userId that int() cannot parse, the ValueError is
raised here, after the group was already put and before the occurrence
is: the error state keeps the group write and has no occurrence. -/
def appendInstance (s : ServerState) (error : LoggedErrorV2) (environment : String)
    (timestamp : Int) (message server : String) (logMessage : Option String)
    (context : Option ContextBlob) : ServerState × Option MErr :=
  match context with
  | some ctx =>
    match ctx.userId with
    | some v =>
      match parseInt? v with
      | some n =>
        ({ s with instances := s.instances ++
            [freshInstance error.id environment timestamp message server logMessage
              (some ctx.dump) (some n)] }, none)
      | none => (s, some MErr.malformedReport)
    | none =>
      ({ s with instances := s.instances ++
          [freshInstance error.id environment timestamp message server logMessage
            (some ctx.dump) none] }, none)
  | none =>
    ({ s with instances := s.instances ++
        [freshInstance error.id environment timestamp message server logMessage
          none none] }, none)

/-- server.py putException. Required fields are read first (a missing one
is a KeyError before any write); then the report is merged into an
existing group or a fresh group is created under the project; finally the
occurrence is appended. The second component reports a raised error; the
first component is the datastore state at that point. -/
def putException (ev : ExtEnv) (exception : Exc) (s : ServerState) :
    ServerState × Option MErr :=
  match exception.backtrace, exception.environment, exception.message,
        exception.project, exception.serverName, exception.timestamp,
        exception.type with
  | some backtraceText, some environment, some message0, some project,
    some server, some timestamp, some exceptionType =>
    let message := match message0 with | none => "" | some m => m
    let errorHash := generateHash ev exceptionType backtraceText
    match getAggregatedError ev s project environment server backtraceText errorHash
        message timestamp with
    | (s1, some error) =>
      appendInstance s1 error environment timestamp message server
        exception.logMessage exception.context
    | (s1, none) =>
      let sp := getProject s1 project
      let error := freshGroup sp.1.nextId sp.2 backtraceText exceptionType errorHash
        message environment server timestamp
      let s2 := { sp.1 with groups := sp.1.groups ++ [error], nextId := sp.1.nextId + 1 }
      appendInstance s2 error environment timestamp message server
        exception.logMessage exception.context
  | _, _, _, _, _, _, _ => (s, some MErr.malformedReport)

/-- ResolvePage.doAuthenticatedGet: fetch the group by key, set active to
false, put it back, and run the memcache delete for the key built at
line 479 from the parent project key name and the hash. Aggregator
entries are keyed on the line-248 entity rendering instead, so this
delete does not in general evict them. none models the AttributeError
on a missing key. -/
def resolve (s : ServerState) (gid : Nat) : Option ServerState :=
  match s.groups.find? (fun g => g.id == gid) with
  | none => none
  | some error0 =>
    let error := { error0 with active := false }
    some { s with groups := putGroup s.groups error,
                  cache := cacheDel s.cache (error0.project, error0.hash) }

/-- ReportWorker.post: fetch the queued task; if it is gone, return with
no effect; otherwise run putException on its payload and delete the task
only afterwards - a raised error propagates and the task is kept. -/
def reportWorker (ev : ExtEnv) (s : ServerState) (key : Nat) : ServerState :=
  match s.queue.find? (fun t => t.1 == key) with
  | none => s
  | some task =>
    match putException ev task.2 s with
    | (s1, none) => { s1 with queue := s1.queue.filter (fun t => t.1 != key) }
    | (s1, some _) => s1

/-- The filters recognized by getFilters: the project filter plus the
occurrence-level INSTANCE_FILTERS. affectedUser carries the integer
that filterData obtains with int() from the request value. -/
structure Filters where
  project : Option String
  environment : Option String
  server : Option String
  affectedUser : Option Int
deriving DecidableEq

def matchesFilters (f : Filters) (i : LoggedErrorInstanceV2) : Bool :=
  (match f.environment with | some e => i.environment == e | none => true) &&
  (match f.server with | some v => i.server == v | none => true) &&
  (match f.affectedUser with | some n => i.affectedUser == some n | none => true)

def Filters.hasInstanceFilter (f : Filters) : Bool :=
  f.environment.isSome || f.server.isSome || f.affectedUser.isSome

/-- The date of the head of the bucket after sorting by date descending,
that is the maximum date of a nonempty instance list (line 204). -/
def maxDate : List LoggedErrorInstanceV2 → Int
  | [] => 0
  | i :: t => t.foldl (fun a j => max a j.date) i.date

/-- Stable insertion of a group into a list sorted by lastOccurrence
descending; together with sortByLastDesc this models the datastore
order by lastOccurrence descending of line 180. -/
def insertByLast (g : LoggedErrorV2) : List LoggedErrorV2 → List LoggedErrorV2
  | [] => [g]
  | h :: t => if g.lastOccurrence < h.lastOccurrence then h :: insertByLast g t
              else g :: h :: t

def sortByLastDesc : List LoggedErrorV2 → List LoggedErrorV2
  | [] => []
  | h :: t => insertByLast h (sortByLastDesc t)

/-- server.py filterErrors: bucket the instances matching the filters by
parent group, and for each group with a nonempty bucket yield a view
overriding count, lastOccurrence, environments and servers from the
bucket; groups with an empty bucket yield nothing. The view reuses the
LoggedErrorV2 record shape, as the source dict copies every property. -/
def filterErrors (s : ServerState) (errors : List LoggedErrorV2) (f : Filters) :
    List LoggedErrorV2 :=
  errors.filterMap (fun e =>
    let insts := s.instances.filter (fun i => i.parent == e.id && matchesFilters f i)
    if insts.isEmpty then none
    else some { e with
      count := insts.length
      lastOccurrence := maxDate insts
      environments := (insts.map (fun i => i.environment)).dedup
      servers := (insts.map (fun i => i.server)).dedup })

/-- Lines 173-180 of getErrors: the active groups, scoped to a project
when the project filter is present (which runs getProject and can create
the project), in lastOccurrence-descending order is applied afterwards. -/
def scopedActive (s : ServerState) (f : Filters) : ServerState × List LoggedErrorV2 :=
  match f.project with
  | some p =>
    let sp := getProject s p
    (sp.1, sp.1.groups.filter (fun g => g.active && g.project == sp.2))
  | none => (s, s.groups.filter (fun g => g.active))

/-- server.py getErrors: with at least one occurrence-level filter the
result is the islice of the filterErrors generator from offset to offset
plus limit; otherwise a direct fetch(limit, offset) page. -/
def getErrors (s : ServerState) (f : Filters) (limit offset : Nat) :
    ServerState × List LoggedErrorV2 :=
  let sa := scopedActive s f
  let ordered := sortByLastDesc sa.2
  if f.hasInstanceFilter then
    (sa.1, ((filterErrors sa.1 ordered f).drop offset).take limit)
  else
    (sa.1, (ordered.drop offset).take limit)

/-- Whether an instance is a datastore descendant of the named project:
its parent group belongs to that project. -/
def instInProject (s : ServerState) (p : String) (i : LoggedErrorInstanceV2) : Bool :=
  s.groups.any (fun g => g.id == i.parent && g.project == p)

def parseAllInts : List String → Option (List Int)
  | [] => some []
  | t :: ts =>
    match parseInt? t, parseAllInts ts with
    | some n, some ns => some (n :: ns)
    | _, _ => none

def joinSpace : List String → String
  | [] => ""
  | [x] => x
  | x :: t => x ++ " " ++ joinSpace t

/-- StatPage.get with a valid secret key: resolve the project when one is
given (get_or_insert, so the not-project branch of line 395 never fires),
then for each whitespace-separated token count the instances, scoped to
the project if any, with date at least now minus that many minutes. The
response string is written only after every token parsed, so an
unparsable token (ValueError from int) yields no response: none here. -/
def statPage (s : ServerState) (project : Option String) (now : Int)
    (minutes : String) : ServerState × Option String :=
  let sp : ServerState × Option String :=
    match project with
    | some p => let q := getProject s p; (q.1, some q.2)
    | none => (s, none)
  let s := sp.1
  match parseAllInts (wsSplit minutes) with
  | none => (s, none)
  | some ms =>
    let counts := ms.map (fun m =>
      (s.instances.filter (fun i =>
        (match sp.2 with | some p => instInProject s p i | none => true) &&
        decide (now - 60 * m ≤ i.date))).length)
    (s, some (joinSpace (counts.map (fun c => toString c))))

/-- A syntactically complete report: every required ingestion field is
present. message is the nullable message value. -/
structure Report where
  backtrace : String
  environment : String
  message : Option String
  project : String
  serverName : String
  timestamp : Int
  type : String
  logMessage : Option String
  context : Option ContextBlob
deriving DecidableEq

def Report.toExc (r : Report) : Exc :=
  { backtrace := some r.backtrace, environment := some r.environment,
    message := some r.message, project := some r.project,
    serverName := some r.serverName, timestamp := some r.timestamp,
    type := some r.type, logMessage := r.logMessage, context := r.context }

/-- The message string after the Python coercion of a null message to
the empty string. -/
def msgOf (r : Report) : String := match r.message with | none => "" | some m => m

/-- The report's fingerprint. -/
def reportHash (ev : ExtEnv) (r : Report) : String :=
  generateHash ev r.type r.backtrace

/-- A context blob whose userId, if any, parses as an integer - the
remaining validity condition on a complete report. -/
def contextOk : Option ContextBlob → Bool
  | some c => (match c.userId with | some v => (parseInt? v).isSome | none => true)
  | none => true

/-- The affected-user attribute the source parses out of the context. -/
def userOf : Option ContextBlob → Option Int
  | some c => c.userId.bind parseInt?
  | none => none

def groupTsOk (g : LoggedErrorV2) : Prop := g.firstOccurrence ≤ g.lastOccurrence

instance (g : LoggedErrorV2) : Decidable (groupTsOk g) := by
  unfold groupTsOk; infer_instance

/-- The timestamp invariant, strengthened over the memcache snapshots as
well since a merge can start from a cached snapshot. -/
def tsInv (s : ServerState) : Prop :=
  (∀ g ∈ s.groups, groupTsOk g) ∧ (∀ e ∈ s.cache, groupTsOk e.2)

instance (s : ServerState) : Decidable (tsInv s) := by
  unfold tsInv; infer_instance

/-- Key sanity of a reachable datastore: group ids are distinct and below
the fresh-id counter, also for cached snapshots. -/
def Sane (s : ServerState) : Prop :=
  (s.groups.map (fun g => g.id)).Nodup ∧ (∀ g ∈ s.groups, g.id < s.nextId) ∧
    (∀ e ∈ s.cache, e.2.id < s.nextId)

instance (s : ServerState) : Decidable (Sane s) := by
  unfold Sane; infer_instance

/-! Helper lemmas about the store primitives. -/

theorem getProject_snd (s : ServerState) (p : String) : (getProject s p).2 = p := rfl

theorem getProject_groups (s : ServerState) (p : String) :
    (getProject s p).1.groups = s.groups := by
  by_cases h : p ∈ s.projects <;> simp [getProject, h]

theorem getProject_cache (s : ServerState) (p : String) :
    (getProject s p).1.cache = s.cache := by
  by_cases h : p ∈ s.projects <;> simp [getProject, h]

theorem getProject_instances (s : ServerState) (p : String) :
    (getProject s p).1.instances = s.instances := by
  by_cases h : p ∈ s.projects <;> simp [getProject, h]

theorem getProject_nextId (s : ServerState) (p : String) :
    (getProject s p).1.nextId = s.nextId := by
  by_cases h : p ∈ s.projects <;> simp [getProject, h]

theorem getProject_queue (s : ServerState) (p : String) :
    (getProject s p).1.queue = s.queue := by
  by_cases h : p ∈ s.projects <;> simp [getProject, h]

theorem getProject_tick (s : ServerState) (p : String) :
    (getProject s p).1.tick = s.tick := by
  by_cases h : p ∈ s.projects <;> simp [getProject, h]

theorem getProject_mem (s : ServerState) (p : String) :
    p ∈ (getProject s p).1.projects := by
  by_cases h : p ∈ s.projects <;> simp [getProject, h]

theorem getProject_idem (s : ServerState) (p : String) (h : p ∈ s.projects) :
    getProject s p = (s, p) := by
  simp [getProject, h]

theorem cacheGet_del_self (c : List ((String × String) × LoggedErrorV2))
    (k : String × String) : cacheGet (cacheDel c k) k = none := by
  unfold cacheGet cacheDel
  rw [Option.map_eq_none', List.find?_eq_none]
  intro e he
  rcases List.mem_filter.mp he with ⟨_, hk⟩
  simp only [Bool.not_eq_true'] at hk
  simp [hk]

theorem mem_of_cacheGet (c : List ((String × String) × LoggedErrorV2))
    (k : String × String) (g : LoggedErrorV2) (h : cacheGet c k = some g) :
    ∃ e ∈ c, e.2 = g := by
  unfold cacheGet at h
  rcases Option.map_eq_some'.mp h with ⟨e, he, rfl⟩
  exact ⟨e, List.mem_of_find?_eq_some he, rfl⟩

theorem mem_cacheSet (c : List ((String × String) × LoggedErrorV2))
    (k : String × String) (g : LoggedErrorV2) (e) (h : e ∈ cacheSet c k g) :
    e = (k, g) ∨ e ∈ c := by
  unfold cacheSet at h
  rcases List.mem_cons.mp h with h | h
  · exact Or.inl h
  · exact Or.inr (List.mem_filter.mp h).1

theorem mem_putGroup (gs : List LoggedErrorV2) (m x : LoggedErrorV2)
    (h : x ∈ putGroup gs m) : x ∈ gs ∨ x = m := by
  unfold putGroup at h
  split at h
  · rcases List.mem_map.mp h with ⟨y, hy, hxy⟩
    by_cases hid : (y.id == m.id) = true
    · right; rw [← hxy]; simp [hid]
    · left; rw [← hxy]; simpa [hid] using hy
  · rcases List.mem_append.mp h with h | h
    · exact Or.inl h
    · right; simpa using h

theorem putGroup_find_self (gs : List LoggedErrorV2) (m : LoggedErrorV2) :
    (putGroup gs m).find? (fun x => x.id == m.id) = some m := by
  unfold putGroup
  split
  · rename_i hany
    induction gs with
    | nil => simp at hany
    | cons h t ih =>
      by_cases hh : (h.id == m.id) = true
      · simp [hh, List.find?]
      · have hh' : (h.id == m.id) = false := by simpa using hh
        simp only [List.map_cons, List.find?_cons, hh', Bool.false_eq_true, if_false]
        rcases List.any_eq_true.mp hany with ⟨x, hx, hxm⟩
        rcases List.mem_cons.mp hx with rfl | hx
        · exact absurd hxm hh
        · exact ih (List.any_eq_true.mpr ⟨x, hx, hxm⟩)
  · rename_i hany
    rw [List.find?_append]
    have hnone : gs.find? (fun x => x.id == m.id) = none := by
      rw [List.find?_eq_none]
      intro a ha hm
      exact hany (List.any_eq_true.mpr ⟨a, ha, hm⟩)
    simp [hnone]

theorem putGroup_append_last (gs : List LoggedErrorV2) (g1 m : LoggedErrorV2)
    (hne : ∀ x ∈ gs, x.id ≠ m.id) (hid : g1.id = m.id) :
    putGroup (gs ++ [g1]) m = gs ++ [m] := by
  unfold putGroup
  rw [if_pos]
  · rw [List.map_append]
    congr 1
    · have : ∀ (l : List LoggedErrorV2), (∀ x ∈ l, x.id ≠ m.id) →
          l.map (fun x => if x.id == m.id then m else x) = l := by
        intro l hl
        induction l with
        | nil => rfl
        | cons a t ih =>
          have ha' : (a.id == m.id) = false := by
            simpa using hl a (List.mem_cons_self a t)
          simp only [List.map_cons, ha', Bool.false_eq_true, if_false]
          rw [ih (fun x hx => hl x (List.mem_cons_of_mem a hx))]
      exact this gs hne
    · simp [hid]
  · exact List.any_eq_true.mpr ⟨g1, by simp, by simp [hid]⟩

theorem find_of_mem_nodup (gs : List LoggedErrorV2) (g : LoggedErrorV2)
    (hnd : (gs.map (fun x => x.id)).Nodup) (hmem : g ∈ gs) :
    gs.find? (fun x => x.id == g.id) = some g := by
  induction gs with
  | nil => cases hmem
  | cons h t ih =>
    rcases List.mem_cons.mp hmem with rfl | hmem
    · exact List.find?_cons_of_pos _ (by simp)
    · have hh : (h.id == g.id) = false := by
        simp only [List.map_cons, List.nodup_cons] at hnd
        rw [beq_eq_false_iff_ne]
        intro hb
        exact hnd.1 (by rw [hb]; exact List.mem_map_of_mem _ hmem)
      rw [List.find?_cons, hh]
      exact ih (by simp only [List.map_cons, List.nodup_cons] at hnd; exact hnd.2) hmem

/-! Lemmas about the merge step and the aggregator. -/

theorem mergeError_id (en sv bt msg : String) (ts : Int) (g : LoggedErrorV2) :
    (mergeError en sv bt msg ts g).id = g.id := by
  simp only [mergeError]; split_ifs <;> rfl

theorem mergeError_project (en sv bt msg : String) (ts : Int) (g : LoggedErrorV2) :
    (mergeError en sv bt msg ts g).project = g.project := by
  simp only [mergeError]; split_ifs <;> rfl

theorem mergeError_hash (en sv bt msg : String) (ts : Int) (g : LoggedErrorV2) :
    (mergeError en sv bt msg ts g).hash = g.hash := by
  simp only [mergeError]; split_ifs <;> rfl

theorem mergeError_active (en sv bt msg : String) (ts : Int) (g : LoggedErrorV2) :
    (mergeError en sv bt msg ts g).active = g.active := by
  simp only [mergeError]; split_ifs <;> rfl

theorem mergeError_count (en sv bt msg : String) (ts : Int) (g : LoggedErrorV2) :
    (mergeError en sv bt msg ts g).count = g.count + 1 := by
  simp only [mergeError]; split_ifs <;> rfl

theorem mergeError_first (en sv bt msg : String) (ts : Int) (g : LoggedErrorV2) :
    (mergeError en sv bt msg ts g).firstOccurrence = min g.firstOccurrence ts := by
  simp only [mergeError]; split_ifs <;> rfl

theorem mergeError_last (en sv bt msg : String) (ts : Int) (g : LoggedErrorV2) :
    (mergeError en sv bt msg ts g).lastOccurrence =
      if g.lastOccurrence < ts then ts else g.lastOccurrence := by
  simp only [mergeError]; split_ifs <;> simp_all

theorem mergeError_tsOk (en sv bt msg : String) (ts : Int) (g : LoggedErrorV2)
    (h : groupTsOk g) : groupTsOk (mergeError en sv bt msg ts g) := by
  unfold groupTsOk at *
  rw [mergeError_first, mergeError_last]
  split_ifs with hlt <;> omega

theorem mergeError_old (en sv bt msg : String) (ts : Int) (g : LoggedErrorV2)
    (h : ts < g.lastOccurrence) :
    (mergeError en sv bt msg ts g).lastOccurrence = g.lastOccurrence ∧
    (mergeError en sv bt msg ts g).backtrace = g.backtrace ∧
    (mergeError en sv bt msg ts g).lastMessage = g.lastMessage := by
  simp only [mergeError]
  split_ifs <;> first | (exfalso; omega) | simp_all

theorem mergeError_env_mem (en sv bt msg : String) (ts : Int) (g : LoggedErrorV2)
    (x : String) :
    x ∈ (mergeError en sv bt msg ts g).environments ↔
      x ∈ g.environments ∨ x = en := by
  simp only [mergeError]
  split_ifs <;> simp_all

theorem mergeError_srv_mem (en sv bt msg : String) (ts : Int) (g : LoggedErrorV2)
    (x : String) :
    x ∈ (mergeError en sv bt msg ts g).servers ↔ x ∈ g.servers ∨ x = sv := by
  simp only [mergeError]
  split_ifs <;> simp_all

theorem lookupError_tsOk (ev : ExtEnv) (c : List ((String × String) × LoggedErrorV2))
    (gs : List LoggedErrorV2) (k : String × String) (p h bt : String)
    (g : LoggedErrorV2) (hl : lookupError ev c gs k p h bt = some g)
    (hc : ∀ e ∈ c, groupTsOk e.2) (hg : ∀ x ∈ gs, groupTsOk x) : groupTsOk g := by
  unfold lookupError at hl
  cases hcg : cacheGet c k with
  | some x =>
    rw [hcg] at hl
    cases hl
    rcases mem_of_cacheGet c k g hcg with ⟨e, he, rfl⟩
    exact hc e he
  | none =>
    rw [hcg] at hl
    have := List.mem_of_find?_eq_some hl
    exact hg g (List.mem_filter.mp this).1

/-- The aggregator when the lookup misses: the only effects are the
lazy project creation and the consumed entity rendering. -/
theorem gae_none (ev : ExtEnv) (s : ServerState)
    (proj en sv bt h msg : String) (ts : Int)
    (hl : lookupError ev s.cache s.groups (ev.render s.tick, h) proj h bt = none) :
    getAggregatedError ev s proj en sv bt h msg ts =
      ({ (getProject s proj).1 with tick := s.tick + 1 }, none) := by
  simp only [getAggregatedError, getProject_snd, getProject_cache, getProject_groups,
    getProject_tick, hl]

/-- The aggregator on a hit: merge, put, refresh the cache under the
per-call rendering key. -/
theorem gae_some (ev : ExtEnv) (s : ServerState)
    (proj en sv bt h msg : String) (ts : Int) (g0 : LoggedErrorV2)
    (hl : lookupError ev s.cache s.groups (ev.render s.tick, h) proj h bt = some g0) :
    getAggregatedError ev s proj en sv bt h msg ts =
      ({ (getProject s proj).1 with
          tick := s.tick + 1
          groups := putGroup s.groups (mergeError en sv bt msg ts g0)
          cache := cacheSet s.cache (ev.render s.tick, h)
            (mergeError en sv bt msg ts g0) },
       some (mergeError en sv bt msg ts g0)) := by
  simp only [getAggregatedError, getProject_snd, getProject_cache, getProject_groups,
    getProject_tick, hl]

theorem appendInstance_ok (s : ServerState) (er : LoggedErrorV2) (en : String)
    (ts : Int) (msg sv : String) (lm : Option String) (ctx : Option ContextBlob)
    (h : contextOk ctx = true) :
    appendInstance s er en ts msg sv lm ctx =
      ({ s with instances := s.instances ++
          [freshInstance er.id en ts msg sv lm (ctx.map ContextBlob.dump)
            (userOf ctx)] }, none) := by
  cases ctx with
  | none => rfl
  | some c =>
    cases hc : c.userId with
    | none => simp [appendInstance, userOf, hc]
    | some v =>
      have hv : (parseInt? v).isSome = true := by simpa [contextOk, hc] using h
      rcases Option.isSome_iff_exists.mp hv with ⟨n, hn⟩
      simp [appendInstance, userOf, hc, hn]

theorem appendInstance_groups (s : ServerState) (er : LoggedErrorV2) (en : String)
    (ts : Int) (msg sv : String) (lm : Option String) (ctx : Option ContextBlob) :
    (appendInstance s er en ts msg sv lm ctx).1.groups = s.groups := by
  unfold appendInstance
  repeat' split
  all_goals rfl

theorem appendInstance_cache (s : ServerState) (er : LoggedErrorV2) (en : String)
    (ts : Int) (msg sv : String) (lm : Option String) (ctx : Option ContextBlob) :
    (appendInstance s er en ts msg sv lm ctx).1.cache = s.cache := by
  unfold appendInstance
  repeat' split
  all_goals rfl

theorem appendInstance_queue (s : ServerState) (er : LoggedErrorV2) (en : String)
    (ts : Int) (msg sv : String) (lm : Option String) (ctx : Option ContextBlob) :
    (appendInstance s er en ts msg sv lm ctx).1.queue = s.queue := by
  unfold appendInstance
  repeat' split
  all_goals rfl

/-- putException on a complete report, reduced to the aggregator match. -/
theorem putException_report (ev : ExtEnv) (r : Report) (s : ServerState) :
    putException ev r.toExc s =
      match getAggregatedError ev s r.project r.environment r.serverName r.backtrace
          (reportHash ev r) (msgOf r) r.timestamp with
      | (s1, some error) =>
          appendInstance s1 error r.environment r.timestamp (msgOf r) r.serverName
            r.logMessage r.context
      | (s1, none) =>
          let sp := getProject s1 r.project
          let error := freshGroup sp.1.nextId sp.2 r.backtrace r.type (reportHash ev r)
            (msgOf r) r.environment r.serverName r.timestamp
          let s2 := { sp.1 with
            groups := sp.1.groups ++ [error], nextId := sp.1.nextId + 1 }
          appendInstance s2 error r.environment r.timestamp (msgOf r) r.serverName
            r.logMessage r.context := rfl

theorem tsInv_getProject (s : ServerState) (p : String) (h : tsInv s) :
    tsInv (getProject s p).1 := by
  unfold tsInv
  rw [getProject_groups, getProject_cache]
  exact h

theorem freshGroup_tsOk (gid : Nat) (p bt tp h m en sv : String) (ts : Int) :
    groupTsOk (freshGroup gid p bt tp h m en sv ts) := by
  unfold groupTsOk freshGroup
  exact le_refl ts

theorem gae_tsInv (ev : ExtEnv) (s : ServerState)
    (proj en sv bt h msg : String) (ts : Int) (hs : tsInv s) :
    tsInv (getAggregatedError ev s proj en sv bt h msg ts).1 := by
  cases hl : lookupError ev s.cache s.groups (ev.render s.tick, h) proj h bt with
  | none =>
    rw [gae_none ev s proj en sv bt h msg ts hl]
    exact tsInv_getProject s proj hs
  | some g0 =>
    rw [gae_some ev s proj en sv bt h msg ts g0 hl]
    have hm : groupTsOk (mergeError en sv bt msg ts g0) :=
      mergeError_tsOk en sv bt msg ts g0
        (lookupError_tsOk ev s.cache s.groups (ev.render s.tick, h) proj h bt g0 hl
          hs.2 hs.1)
    constructor
    · intro x hx
      rcases mem_putGroup s.groups _ x hx with hx | rfl
      · exact hs.1 x hx
      · exact hm
    · intro e he
      rcases mem_cacheSet s.cache (ev.render s.tick, h) _ e he with rfl | he
      · exact hm
      · exact hs.2 e he

theorem appendInstance_tsInv (s : ServerState) (er : LoggedErrorV2) (en : String)
    (ts : Int) (msg sv : String) (lm : Option String) (ctx : Option ContextBlob)
    (h : tsInv s) : tsInv (appendInstance s er en ts msg sv lm ctx).1 := by
  unfold tsInv
  rw [appendInstance_groups, appendInstance_cache]
  exact h

/-- Claim C5: the invariant that firstOccurrence is at most lastOccurrence
holds for every group after every ingestion: a fresh group gets both equal
to the report timestamp, and a merge takes the min for firstOccurrence and
only ever raises lastOccurrence, so the invariant (strengthened to cached
snapshots, from which a merge may start) is preserved by putException from
any state satisfying it, for any payload, also when ingestion errors. -/
theorem c5_first_le_last (ev : ExtEnv) (e : Exc) (s : ServerState) (h : tsInv s) :
    tsInv (putException ev e s).1 := by
  obtain ⟨bt?, en?, m?, p?, sv?, ts?, tp?, lm, ctx⟩ := e
  cases bt? with
  | none => exact h
  | some bt =>
  cases en? with
  | none => exact h
  | some en =>
  cases m? with
  | none => exact h
  | some m0 =>
  cases p? with
  | none => exact h
  | some p =>
  cases sv? with
  | none => exact h
  | some sv =>
  cases ts? with
  | none => exact h
  | some ts =>
  cases tp? with
  | none => exact h
  | some tp =>
  have core : ∀ msg : String,
      tsInv ((match getAggregatedError ev s p en sv bt (generateHash ev tp bt) msg ts with
        | (s1, some error) => appendInstance s1 error en ts msg sv lm ctx
        | (s1, none) =>
          let sp := getProject s1 p
          let error := freshGroup sp.1.nextId sp.2 bt tp (generateHash ev tp bt) msg
            en sv ts
          let s2 := { sp.1 with
            groups := sp.1.groups ++ [error], nextId := sp.1.nextId + 1 }
          appendInstance s2 error en ts msg sv lm ctx).1) := by
    intro msg
    split
    · rename_i s1 error heq
      apply appendInstance_tsInv
      have h2 := gae_tsInv ev s p en sv bt (generateHash ev tp bt) msg ts h
      rw [heq] at h2
      exact h2
    · rename_i s1 heq
      apply appendInstance_tsInv
      have h2 := gae_tsInv ev s p en sv bt (generateHash ev tp bt) msg ts h
      rw [heq] at h2
      have hsp := tsInv_getProject s1 p h2
      constructor
      · intro x hx
        rcases List.mem_append.mp hx with hx | hx
        · exact hsp.1 x hx
        · rw [List.mem_singleton.mp hx]
          apply freshGroup_tsOk
      · intro q hq
        exact hsp.2 q hq
  cases m0 with
  | none => exact core ""
  | some m => exact core m

def ev0 : ExtEnv :=
  { normalize := fun s => s, md5hex := fun _ => "h", render := fun _ => "R" }

def r1 : Report :=
  { backtrace := "a", environment := "e1", message := some "m1", project := "P",
    serverName := "s1", timestamp := 10, type := "T", logMessage := none,
    context := none }

theorem c5_witness : tsInv initState ∧ tsInv (putException ev0 r1.toExc initState).1 :=
  ⟨by decide, c5_first_le_last ev0 r1.toExc initState (by decide)⟩

theorem putGroup_find_id (gs : List LoggedErrorV2) (m : LoggedErrorV2) (i : Nat)
    (h : m.id = i) : (putGroup gs m).find? (fun x => x.id == i) = some m := by
  subst h
  exact putGroup_find_self gs m

/-- putException on a complete report whose lookup hits a group and whose
context parses: the merge path end to end. -/
theorem pe_merge (ev : ExtEnv) (r : Report) (s : ServerState) (g : LoggedErrorV2)
    (hl : lookupError ev s.cache s.groups (ev.render s.tick, reportHash ev r)
      r.project (reportHash ev r) r.backtrace = some g)
    (hctx : contextOk r.context = true) :
    putException ev r.toExc s =
      ({ (getProject s r.project).1 with
          tick := s.tick + 1
          groups := putGroup s.groups
            (mergeError r.environment r.serverName r.backtrace (msgOf r)
              r.timestamp g)
          cache := cacheSet s.cache (ev.render s.tick, reportHash ev r)
            (mergeError r.environment r.serverName r.backtrace (msgOf r)
              r.timestamp g)
          instances := s.instances ++
            [freshInstance g.id r.environment r.timestamp (msgOf r) r.serverName
              r.logMessage (r.context.map ContextBlob.dump) (userOf r.context)] },
       none) := by
  rw [putException_report ev r s,
    gae_some ev s r.project r.environment r.serverName r.backtrace (reportHash ev r)
      (msgOf r) r.timestamp g hl]
  dsimp only
  rw [appendInstance_ok _ _ _ _ _ _ _ _ hctx]
  simp [getProject_instances, mergeError_id]

/-- Claim C4: ingesting a matching report whose timestamp is strictly
older than the group's lastOccurrence leaves lastOccurrence, backtrace
and lastMessage unchanged, still increments count, takes the min for
firstOccurrence, adds the environment and server when absent, and still
appends the occurrence under the group. -/
theorem c4_old_timestamp_merge (ev : ExtEnv) (s : ServerState) (g : LoggedErrorV2)
    (r : Report)
    (hl : lookupError ev s.cache s.groups (ev.render s.tick, reportHash ev r)
      r.project (reportHash ev r) r.backtrace = some g)
    (hctx : contextOk r.context = true)
    (hold : r.timestamp < g.lastOccurrence) :
    (putException ev r.toExc s).2 = none ∧
    (∃ gm, (putException ev r.toExc s).1.groups.find? (fun x => x.id == g.id) =
        some gm ∧
      gm.lastOccurrence = g.lastOccurrence ∧ gm.backtrace = g.backtrace ∧
      gm.lastMessage = g.lastMessage ∧ gm.count = g.count + 1 ∧
      gm.firstOccurrence = min g.firstOccurrence r.timestamp ∧
      (∀ x, x ∈ gm.environments ↔ x ∈ g.environments ∨ x = r.environment) ∧
      (∀ x, x ∈ gm.servers ↔ x ∈ g.servers ∨ x = r.serverName)) ∧
    (putException ev r.toExc s).1.instances = s.instances ++
      [freshInstance g.id r.environment r.timestamp (msgOf r) r.serverName
        r.logMessage (r.context.map ContextBlob.dump) (userOf r.context)] := by
  rw [pe_merge ev r s g hl hctx]
  refine ⟨rfl, ⟨mergeError r.environment r.serverName r.backtrace (msgOf r)
    r.timestamp g, ?_, ?_, ?_, ?_, ?_, ?_, ?_, ?_⟩, rfl⟩
  · exact putGroup_find_id s.groups _ g.id (mergeError_id _ _ _ _ _ _)
  · exact (mergeError_old _ _ _ _ _ _ hold).1
  · exact (mergeError_old _ _ _ _ _ _ hold).2.1
  · exact (mergeError_old _ _ _ _ _ _ hold).2.2
  · exact mergeError_count _ _ _ _ _ _
  · exact mergeError_first _ _ _ _ _ _
  · exact fun x => mergeError_env_mem _ _ _ _ _ _ x
  · exact fun x => mergeError_srv_mem _ _ _ _ _ _ x

/-- A concrete store with one active group for the C4 and C1 scenarios. -/
def gW : LoggedErrorV2 :=
  { id := 0, project := "P", backtrace := "a", type := "T", hash := "h",
    active := true, count := 3, level := 30, firstOccurrence := 5,
    lastOccurrence := 20, lastMessage := "old", environments := ["e0"],
    servers := ["s0"] }

def sW : ServerState := { initState with projects := ["P"], groups := [gW], nextId := 1 }

def rOld : Report :=
  { backtrace := "a", environment := "e1", message := some "newmsg",
    project := "P", serverName := "s1", timestamp := 10, type := "T",
    logMessage := none, context := none }

theorem c4_witness :
    (putException ev0 rOld.toExc sW).2 = none ∧
    (∃ gm, (putException ev0 rOld.toExc sW).1.groups.find? (fun x => x.id == gW.id) =
        some gm ∧
      gm.lastOccurrence = gW.lastOccurrence ∧ gm.backtrace = gW.backtrace ∧
      gm.lastMessage = gW.lastMessage ∧ gm.count = gW.count + 1 ∧
      gm.firstOccurrence = min gW.firstOccurrence rOld.timestamp ∧
      (∀ x, x ∈ gm.environments ↔ x ∈ gW.environments ∨ x = rOld.environment) ∧
      (∀ x, x ∈ gm.servers ↔ x ∈ gW.servers ∨ x = rOld.serverName)) ∧
    (putException ev0 rOld.toExc sW).1.instances = sW.instances ++
      [freshInstance gW.id rOld.environment rOld.timestamp (msgOf rOld)
        rOld.serverName rOld.logMessage (rOld.context.map ContextBlob.dump)
        (userOf rOld.context)] :=
  c4_old_timestamp_merge ev0 sW gW rOld (by decide) (by decide) (by decide)

theorem freshGroup_id (gid : Nat) (p bt tp h m en sv : String) (ts : Int) :
    (freshGroup gid p bt tp h m en sv ts).id = gid := rfl

theorem freshGroup_project (gid : Nat) (p bt tp h m en sv : String) (ts : Int) :
    (freshGroup gid p bt tp h m en sv ts).project = p := rfl

theorem freshGroup_backtrace (gid : Nat) (p bt tp h m en sv : String) (ts : Int) :
    (freshGroup gid p bt tp h m en sv ts).backtrace = bt := rfl

theorem freshGroup_hash (gid : Nat) (p bt tp h m en sv : String) (ts : Int) :
    (freshGroup gid p bt tp h m en sv ts).hash = h := rfl

theorem freshGroup_active (gid : Nat) (p bt tp h m en sv : String) (ts : Int) :
    (freshGroup gid p bt tp h m en sv ts).active = true := rfl

theorem freshGroup_count (gid : Nat) (p bt tp h m en sv : String) (ts : Int) :
    (freshGroup gid p bt tp h m en sv ts).count = 1 := rfl

/-- putException on a complete report whose lookup misses and whose
context parses: the creation path end to end. -/
theorem pe_create (ev : ExtEnv) (r : Report) (s : ServerState)
    (hl : lookupError ev s.cache s.groups (ev.render s.tick, reportHash ev r)
      r.project (reportHash ev r) r.backtrace = none)
    (hctx : contextOk r.context = true) :
    putException ev r.toExc s =
      ({ (getProject s r.project).1 with
          tick := s.tick + 1
          groups := s.groups ++
            [freshGroup s.nextId r.project r.backtrace r.type (reportHash ev r)
              (msgOf r) r.environment r.serverName r.timestamp]
          nextId := s.nextId + 1
          instances := s.instances ++
            [freshInstance s.nextId r.environment r.timestamp (msgOf r) r.serverName
              r.logMessage (r.context.map ContextBlob.dump) (userOf r.context)] },
       none) := by
  rw [putException_report ev r s,
    gae_none ev s r.project r.environment r.serverName r.backtrace (reportHash ev r)
      (msgOf r) r.timestamp hl]
  dsimp only
  rw [getProject_idem _ r.project (by exact getProject_mem s r.project)]
  dsimp only
  rw [appendInstance_ok _ _ _ _ _ _ _ _ hctx]
  simp [getProject_instances, getProject_groups, getProject_nextId, freshGroup_id]

theorem pe_create_err (ev : ExtEnv) (r : Report) (s : ServerState)
    (hl : lookupError ev s.cache s.groups (ev.render s.tick, reportHash ev r)
      r.project (reportHash ev r) r.backtrace = none)
    (hctx : contextOk r.context = true) :
    (putException ev r.toExc s).2 = none := by
  rw [pe_create ev r s hl hctx]

theorem pe_create_groups (ev : ExtEnv) (r : Report) (s : ServerState)
    (hl : lookupError ev s.cache s.groups (ev.render s.tick, reportHash ev r)
      r.project (reportHash ev r) r.backtrace = none)
    (hctx : contextOk r.context = true) :
    (putException ev r.toExc s).1.groups = s.groups ++
      [freshGroup s.nextId r.project r.backtrace r.type (reportHash ev r)
        (msgOf r) r.environment r.serverName r.timestamp] := by
  rw [pe_create ev r s hl hctx]

theorem pe_create_cache (ev : ExtEnv) (r : Report) (s : ServerState)
    (hl : lookupError ev s.cache s.groups (ev.render s.tick, reportHash ev r)
      r.project (reportHash ev r) r.backtrace = none)
    (hctx : contextOk r.context = true) :
    (putException ev r.toExc s).1.cache = s.cache := by
  rw [pe_create ev r s hl hctx]
  exact getProject_cache s r.project

theorem pe_create_instances (ev : ExtEnv) (r : Report) (s : ServerState)
    (hl : lookupError ev s.cache s.groups (ev.render s.tick, reportHash ev r)
      r.project (reportHash ev r) r.backtrace = none)
    (hctx : contextOk r.context = true) :
    (putException ev r.toExc s).1.instances = s.instances ++
      [freshInstance s.nextId r.environment r.timestamp (msgOf r) r.serverName
        r.logMessage (r.context.map ContextBlob.dump) (userOf r.context)] := by
  rw [pe_create ev r s hl hctx]

theorem pe_merge_groups (ev : ExtEnv) (r : Report) (s : ServerState)
    (g : LoggedErrorV2)
    (hl : lookupError ev s.cache s.groups (ev.render s.tick, reportHash ev r)
      r.project (reportHash ev r) r.backtrace = some g)
    (hctx : contextOk r.context = true) :
    (putException ev r.toExc s).1.groups = putGroup s.groups
      (mergeError r.environment r.serverName r.backtrace (msgOf r) r.timestamp g) := by
  rw [pe_merge ev r s g hl hctx]

theorem pe_merge_err (ev : ExtEnv) (r : Report) (s : ServerState)
    (g : LoggedErrorV2)
    (hl : lookupError ev s.cache s.groups (ev.render s.tick, reportHash ev r)
      r.project (reportHash ev r) r.backtrace = some g)
    (hctx : contextOk r.context = true) :
    (putException ev r.toExc s).2 = none := by
  rw [pe_merge ev r s g hl hctx]

theorem filter_matching_nil (gs : List LoggedErrorV2) (p h : String)
    (hnone : ∀ g ∈ gs, g.project = p → g.hash = h → g.active = false) :
    gs.filter (fun g => g.project == p && g.hash == h && g.active) = [] := by
  rw [List.filter_eq_nil_iff]
  intro g hg
  by_cases h1 : g.project = p
  · by_cases h2 : g.hash = h
    · simp [h1, h2, hnone g hg h1 h2]
    · simp [h2]
  · simp [h1]

theorem lookupError_none (ev : ExtEnv)
    (c : List ((String × String) × LoggedErrorV2)) (gs : List LoggedErrorV2)
    (k : String × String) (p h bt : String) (hc : cacheGet c k = none)
    (hg : gs.filter (fun g => g.project == p && g.hash == h && g.active) = []) :
    lookupError ev c gs k p h bt = none := by
  unfold lookupError
  rw [hc, hg]
  rfl

/-- Claim C7: two reports with the same project, type and normalized
backtrace, ingested in sequence from a state holding no cache entry and
no active group for their fingerprint, end in a single active group for
that fingerprint in that project, with count two. -/
theorem c7_same_class_merges (ev : ExtEnv) (s : ServerState) (ra rb : Report)
    (hs : Sane s)
    (hproj : rb.project = ra.project) (htype : rb.type = ra.type)
    (hnorm : ev.normalize rb.backtrace = ev.normalize ra.backtrace)
    (hcache : ∀ rk : String, cacheGet s.cache (rk, reportHash ev ra) = none)
    (hnone : ∀ g ∈ s.groups, g.project = ra.project → g.hash = reportHash ev ra →
      g.active = false)
    (hc1 : contextOk ra.context = true) (hc2 : contextOk rb.context = true) :
    (putException ev ra.toExc s).2 = none ∧
    (putException ev rb.toExc (putException ev ra.toExc s).1).2 = none ∧
    ∃ gm, ((putException ev rb.toExc (putException ev ra.toExc s).1).1.groups.filter
        (fun g => g.project == ra.project && g.hash == reportHash ev ra && g.active))
        = [gm] ∧ gm.count = 2 := by
  have hh : reportHash ev rb = reportHash ev ra := by
    unfold reportHash generateHash
    rw [htype, hnorm]
  have hfil := filter_matching_nil s.groups ra.project (reportHash ev ra) hnone
  have hl1 : lookupError ev s.cache s.groups (ev.render s.tick, reportHash ev ra)
      ra.project (reportHash ev ra) ra.backtrace = none :=
    lookupError_none ev _ _ _ _ _ _ (hcache (ev.render s.tick)) hfil
  set g1 := freshGroup s.nextId ra.project ra.backtrace ra.type (reportHash ev ra)
    (msgOf ra) ra.environment ra.serverName ra.timestamp with hg1
  have hl2 : lookupError ev (putException ev ra.toExc s).1.cache
      (putException ev ra.toExc s).1.groups
      (ev.render (putException ev ra.toExc s).1.tick, reportHash ev rb)
      rb.project (reportHash ev rb) rb.backtrace = some g1 := by
    rw [pe_create_cache ev ra s hl1 hc1, pe_create_groups ev ra s hl1 hc1]
    unfold lookupError
    rw [hproj, hh]
    rw [hcache (ev.render (putException ev ra.toExc s).1.tick)]
    rw [List.filter_append, hfil]
    have : ([g1].filter
        (fun g => g.project == ra.project && g.hash == reportHash ev ra && g.active))
        = [g1] := by
      simp [hg1, freshGroup_project, freshGroup_hash, freshGroup_active]
    rw [List.nil_append, this, List.find?_cons]
    have hb : (ev.normalize g1.backtrace == ev.normalize rb.backtrace) = true := by
      rw [hg1, freshGroup_backtrace, hnorm]
      simp
    rw [hb]
  set gm := mergeError rb.environment rb.serverName rb.backtrace (msgOf rb)
    rb.timestamp g1 with hgm
  have hid : gm.id = g1.id := mergeError_id _ _ _ _ _ _
  have hgroups : (putException ev rb.toExc (putException ev ra.toExc s).1).1.groups
      = s.groups ++ [gm] := by
    rw [pe_merge_groups ev rb (putException ev ra.toExc s).1 g1 hl2 hc2]
    rw [pe_create_groups ev ra s hl1 hc1]
    apply putGroup_append_last
    · intro x hx
      rw [hid, hg1, freshGroup_id]
      exact Nat.ne_of_lt (hs.2.1 x hx)
    · exact hid.symm
  refine ⟨pe_create_err ev ra s hl1 hc1,
    pe_merge_err ev rb (putException ev ra.toExc s).1 g1 hl2 hc2, gm, ?_, ?_⟩
  · rw [hgroups, List.filter_append, hfil, List.nil_append]
    have hp : gm.project = ra.project := by
      rw [hgm, mergeError_project, hg1, freshGroup_project]
    have hha : gm.hash = reportHash ev ra := by
      rw [hgm, mergeError_hash, hg1, freshGroup_hash]
    have hac : gm.active = true := by
      rw [hgm, mergeError_active, hg1, freshGroup_active]
    simp [hp, hha, hac]
  · rw [hgm, mergeError_count, hg1, freshGroup_count]

def r2 : Report :=
  { backtrace := "a", environment := "e2", message := some "m2", project := "P",
    serverName := "s2", timestamp := 30, type := "T", logMessage := none,
    context := none }

theorem c7_witness :
    (putException ev0 r1.toExc initState).2 = none ∧
    (putException ev0 r2.toExc (putException ev0 r1.toExc initState).1).2 = none ∧
    ∃ gm, ((putException ev0 r2.toExc
        (putException ev0 r1.toExc initState).1).1.groups.filter
        (fun g => g.project == r1.project && g.hash == reportHash ev0 r1 && g.active))
        = [gm] ∧ gm.count = 2 :=
  c7_same_class_merges ev0 initState r1 r2 (by decide) (by decide) (by decide)
    (by decide) (fun _ => rfl) (by decide) (by decide) (by decide)

/-- The state after ingesting r1 twice from empty under ev0, whose
constant render models an execution in which the entity rendering of
line 248 repeats: the second ingestion merges via the store scan and
caches the group snapshot under the per-call rendering key. -/
def sCached : ServerState :=
  (putException ev0 r1.toExc (putException ev0 r1.toExc initState).1).1

theorem mem_putGroup_strong (gs : List LoggedErrorV2) (m x : LoggedErrorV2)
    (h : x ∈ putGroup gs m) : x = m ∨ (x ∈ gs ∧ x.id ≠ m.id) := by
  unfold putGroup at h
  split at h
  · rcases List.mem_map.mp h with ⟨y, hy, hxy⟩
    by_cases hid : (y.id == m.id) = true
    · left; rw [← hxy]; simp [hid]
    · have hy' : (y.id == m.id) = false := by simpa using hid
      right
      constructor
      · rw [← hxy]
        simp only [hy', Bool.false_eq_true, if_false]
        exact hy
      · rw [← hxy]
        simp only [hy', Bool.false_eq_true, if_false]
        exact beq_eq_false_iff_ne.mp hy' 
  · rename_i hany
    rcases List.mem_append.mp h with h | h
    · right
      refine ⟨h, fun hx => ?_⟩
      exact hany (List.any_eq_true.mpr ⟨x, h, by simp [hx]⟩)
    · left; simpa using h

/-- Claim C1, evaluated at the failing input: before resolution the only
group (id 0, for project P and the fingerprint of type T over backtrace
a) is active with count 2 and a snapshot of it sits in the cache under
the line-248 rendering key; resolve deactivates the group but its
memcache delete uses the line-479 name key, which matches no aggregator
entry, so the snapshot - still marked active - survives; the next
ingestion of the same report, in an execution whose entity rendering
repeats (ev0's render is constant), hits the stale snapshot, merges
into it and puts it back: the group comes back active with count 3 and
no fresh group is created, against the claim and the stated intent of
resolve. -/
theorem c1_revival_bug :
    sCached.groups.map (fun g => (g.id, g.active, g.count)) = [(0, true, 2)] ∧
    (resolve sCached 0).map (fun s1 =>
        (s1.groups.map (fun g => (g.id, g.active, g.count)), s1.cache.length)) =
      some ([(0, false, 2)], 1) ∧
    (resolve sCached 0).map (fun s1 =>
        ((putException ev0 r1.toExc s1).2,
         (putException ev0 r1.toExc s1).1.groups.map
           (fun g => (g.id, g.active, g.count)))) =
      some (none, [(0, true, 3)]) := by
  decide

def excBadUser : Exc :=
  { backtrace := some "b", environment := some "e", message := some (some "m"),
    project := some "P", serverName := some "s", timestamp := some 5,
    type := some "T", logMessage := none,
    context := some { dump := "d", userId := some "abc" } }

def excMissing : Exc := { excBadUser with backtrace := none }

/-- Claim C3, evaluated at the failing input: a payload with a missing
required field is rejected with the store untouched, but a payload whose
context userId does not parse as an integer errors only after the group
write: the resulting state holds a newly created group and no occurrence,
so ingestion partially persists, contradicting the no-partial-persistence
requirement. -/
theorem c3_partial_persistence_bug :
    putException ev0 excMissing initState = (initState, some MErr.malformedReport) ∧
    (putException ev0 excBadUser initState).2 = some MErr.malformedReport ∧
    (putException ev0 excBadUser initState).1.groups.length = 1 ∧
    (putException ev0 excBadUser initState).1.instances = [] := by
  decide

/-- Three occurrences at 5, 30 and 90 minutes before time 10000. -/
def sStats : ServerState :=
  { initState with instances :=
      [{ parent := 0, environment := "e", date := 9700, message := "", server := "s",
         logMessage := none, context := none, affectedUser := none },
       { parent := 0, environment := "e", date := 8200, message := "", server := "s",
         logMessage := none, context := none, affectedUser := none },
       { parent := 0, environment := "e", date := 4600, message := "", server := "s",
         logMessage := none, context := none, affectedUser := none }] }

/-- Counterexample to claim C8 as stated: with windows of 10 and 60
minutes over occurrences at offsets of minus 5, 30 and 90 minutes, the
code does not answer the string claimed by the spec example. -/
theorem c8_counterexample :
    (statPage sStats none 10000 "10 60").2 ≠ some "2 3" := by
  decide

/-- Claim C8, amended: the 10-minute window holds one occurrence (the
minus-5 one) and the 60-minute window two (minus 5 and minus 30), so the
response is the string of counts 1 and 2, space-separated. -/
theorem c8_trailing_windows :
    statPage sStats none 10000 "10 60" = (sStats, some "1 2") := by
  decide

/-- Claim C9: a queued item whose record was already deleted makes the
worker return with no effect at all; when the record is present the item
is deleted only after the ingestion writes (the final state is the
ingestion state with the record removed), and when ingestion raises, the
record is kept along with the ingestion state so far. -/
theorem c9_worker_ack (ev : ExtEnv) (s : ServerState) (key : Nat) :
    (s.queue.find? (fun t => t.1 == key) = none → reportWorker ev s key = s) ∧
    (∀ task, s.queue.find? (fun t => t.1 == key) = some task →
      ((putException ev task.2 s).2 = none →
        reportWorker ev s key =
          { (putException ev task.2 s).1 with
            queue := (putException ev task.2 s).1.queue.filter
              (fun t => t.1 != key) }) ∧
      (∀ e, (putException ev task.2 s).2 = some e →
        reportWorker ev s key = (putException ev task.2 s).1)) := by
  constructor
  · intro h
    unfold reportWorker
    rw [h]
  · intro task h
    constructor
    · intro hok
      unfold reportWorker
      rw [h]
      dsimp only
      rcases hpe : putException ev task.2 s with ⟨s1, e?⟩
      rw [hpe] at hok
      dsimp only at hok
      subst hok
      rfl
    · intro e he
      unfold reportWorker
      rw [h]
      dsimp only
      rcases hpe : putException ev task.2 s with ⟨s1, e?⟩
      rw [hpe] at he
      dsimp only at he
      subst he
      rfl

def sQ : ServerState := { initState with queue := [(7, r1.toExc)] }

theorem c9_witness :
    reportWorker ev0 sQ 9 = sQ ∧
    reportWorker ev0 sQ 7 =
      { (putException ev0 r1.toExc sQ).1 with
        queue := (putException ev0 r1.toExc sQ).1.queue.filter (fun t => t.1 != 7) } :=
  ⟨(c9_worker_ack ev0 sQ 9).1 (by decide),
   ((c9_worker_ack ev0 sQ 7).2 (7, r1.toExc) (by decide)).1 (by decide)⟩

theorem getErrors_fst (s : ServerState) (f : Filters) (limit offset : Nat) :
    (getErrors s f limit offset).1 = (scopedActive s f).1 := by
  unfold getErrors
  split <;> rfl

/-- Claim C10: reads are not side-effect-free on the Project table: the
group list with a project filter and the stats operation with a project
parameter both run the get-or-insert getProject, so for an unknown
project name they persist a new Project record and change nothing else. -/
theorem c10_reads_create_project (s : ServerState) (p : String)
    (fe fs : Option String) (fa : Option Int) (limit offset : Nat)
    (now : Int) (minutes : String) (hp : p ∉ s.projects) :
    (getErrors s ⟨some p, fe, fs, fa⟩ limit offset).1 =
      { s with projects := p :: s.projects } ∧
    (statPage s (some p) now minutes).1 = { s with projects := p :: s.projects } := by
  have h1 : (getProject s p).1 = { s with projects := p :: s.projects } := by
    simp [getProject, hp]
  constructor
  · rw [getErrors_fst]
    exact h1
  · unfold statPage
    rcases hping : parseAllInts (wsSplit minutes) with _ | ms <;> simp [hping, h1]

theorem c10_witness :
    (getErrors initState ⟨some "P", none, none, none⟩ 5 0).1 =
      { initState with projects := ["P"] } ∧
    (statPage initState (some "P") 0 "10").1 =
      { initState with projects := ["P"] } :=
  c10_reads_create_project initState "P" none none none 5 0 0 "10" (by decide)

theorem insertByLast_perm (g : LoggedErrorV2) (l : List LoggedErrorV2) :
    (insertByLast g l).Perm (g :: l) := by
  induction l with
  | nil => exact List.Perm.refl _
  | cons h t ih =>
    unfold insertByLast
    split
    · exact (ih.cons h).trans (List.Perm.swap g h t)
    · exact List.Perm.refl _

theorem sortByLastDesc_perm (l : List LoggedErrorV2) :
    (sortByLastDesc l).Perm l := by
  induction l with
  | nil => exact List.Perm.refl _
  | cons h t ih =>
    unfold sortByLastDesc
    exact (insertByLast_perm h (sortByLastDesc t)).trans (ih.cons h)

theorem insertByLast_pairwise (g : LoggedErrorV2) (l : List LoggedErrorV2)
    (hl : l.Pairwise (fun a b => b.lastOccurrence ≤ a.lastOccurrence)) :
    (insertByLast g l).Pairwise (fun a b => b.lastOccurrence ≤ a.lastOccurrence) := by
  induction l with
  | nil => simp [insertByLast]
  | cons h t ih =>
    rcases List.pairwise_cons.mp hl with ⟨hh, ht⟩
    unfold insertByLast
    split
    · rename_i hcond
      apply List.pairwise_cons.mpr
      constructor
      · intro x hx
        rcases List.mem_cons.mp ((insertByLast_perm g t).mem_iff.mp hx) with rfl | hx'
        · exact le_of_lt hcond
        · exact hh x hx'
      · exact ih ht
    · rename_i hcond
      apply List.pairwise_cons.mpr
      refine ⟨?_, hl⟩
      intro x hx
      rcases List.mem_cons.mp hx with rfl | hx'
      · omega
      · have := hh x hx'
        omega

theorem sortByLastDesc_pairwise (l : List LoggedErrorV2) :
    (sortByLastDesc l).Pairwise (fun a b => b.lastOccurrence ≤ a.lastOccurrence) := by
  induction l with
  | nil => simp [sortByLastDesc]
  | cons h t ih =>
    unfold sortByLastDesc
    exact insertByLast_pairwise h (sortByLastDesc t) ih

/-- Claim C6: with at least one occurrence-level filter, every group view
returned by getErrors comes from an active group in scope and overrides
count with the exact number of that group's occurrences matching the
filter, lastOccurrence with their maximum timestamp, and environments and
servers with exactly the distinct values among them; groups with no
matching occurrence are dropped, and the page is the offset/limit slice
of the views of the active groups sorted by group lastOccurrence
descending. -/
theorem c6_filtered_list (s : ServerState) (f : Filters) (limit offset : Nat)
    (hf : f.hasInstanceFilter = true) :
    (∀ v ∈ (getErrors s f limit offset).2, ∃ g, g ∈ s.groups ∧ g.active = true ∧
      (∀ p, f.project = some p → g.project = p) ∧ v.id = g.id ∧
      (s.instances.filter (fun i => i.parent == g.id && matchesFilters f i)) ≠ [] ∧
      v.count =
        (s.instances.filter (fun i => i.parent == g.id && matchesFilters f i)).length ∧
      v.lastOccurrence =
        maxDate (s.instances.filter (fun i => i.parent == g.id && matchesFilters f i)) ∧
      (∀ x, x ∈ v.environments ↔
        x ∈ (s.instances.filter (fun i => i.parent == g.id && matchesFilters f i)).map
          (fun i => i.environment)) ∧
      (∀ x, x ∈ v.servers ↔
        x ∈ (s.instances.filter (fun i => i.parent == g.id && matchesFilters f i)).map
          (fun i => i.server))) ∧
    (∃ gs, gs.Perm (scopedActive s f).2 ∧
      gs.Pairwise (fun a b => b.lastOccurrence ≤ a.lastOccurrence) ∧
      (getErrors s f limit offset).2 =
        ((filterErrors (scopedActive s f).1 gs f).drop offset).take limit) := by
  have hinst : (scopedActive s f).1.instances = s.instances := by
    rcases hfp : f.project with _ | p
    · simp [scopedActive, hfp]
    · simp [scopedActive, hfp, getProject_instances]
  have hres : (getErrors s f limit offset).2 =
      ((filterErrors (scopedActive s f).1
        (sortByLastDesc (scopedActive s f).2) f).drop offset).take limit := by
    unfold getErrors
    split
    · rfl
    · rename_i hcond
      exact absurd hf hcond
  refine ⟨?_, sortByLastDesc (scopedActive s f).2, sortByLastDesc_perm _,
    sortByLastDesc_pairwise _, hres⟩
  intro v hv
  rw [hres] at hv
  have hv1 : v ∈ filterErrors (scopedActive s f).1
      (sortByLastDesc (scopedActive s f).2) f :=
    List.mem_of_mem_drop (List.mem_of_mem_take hv)
  unfold filterErrors at hv1
  rcases List.mem_filterMap.mp hv1 with ⟨e, he, heq⟩
  rw [hinst] at heq
  by_cases hemp :
      (s.instances.filter (fun i => i.parent == e.id && matchesFilters f i)).isEmpty
  · rw [if_pos hemp] at heq
    exact absurd heq (by simp)
  · rw [if_neg hemp] at heq
    have hveq := Option.some.inj heq
    subst hveq
    have hesc : e ∈ (scopedActive s f).2 := (sortByLastDesc_perm _).subset he
    have hne : (s.instances.filter (fun i => i.parent == e.id && matchesFilters f i))
        ≠ [] := by
      intro hnil
      rw [hnil] at hemp
      exact hemp rfl
    have hmem : e ∈ s.groups ∧ e.active = true ∧
        (∀ p, f.project = some p → e.project = p) := by
      rcases hfp : f.project with _ | p
      · have h2 : e ∈ s.groups.filter (fun g => g.active) := by
          simpa [scopedActive, hfp] using hesc
        rcases List.mem_filter.mp h2 with ⟨h3, h4⟩
        exact ⟨h3, h4, fun p hp => by simp [hfp] at hp⟩
      · have h2 : e ∈ ((getProject s p).1.groups.filter
            (fun g => g.active && g.project == p)) := by
          simpa [scopedActive, hfp] using hesc
        rw [getProject_groups] at h2
        rcases List.mem_filter.mp h2 with ⟨h3, h4⟩
        have h5 : e.active = true ∧ e.project = p := by simpa using h4
        refine ⟨h3, h5.1, fun p' hp' => ?_⟩
        cases Option.some.inj hp'
        exact h5.2
    refine ⟨e, hmem.1, hmem.2.1, hmem.2.2, rfl, hne, rfl, rfl, ?_, ?_⟩
    · intro x
      simp [List.mem_dedup]
    · intro x
      simp [List.mem_dedup]

def sView : ServerState :=
  { initState with
    projects := ["P"]
    groups := [gW]
    instances :=
      [{ parent := 0, environment := "prod", date := 100, message := "m1",
         server := "sa", logMessage := none, context := none, affectedUser := none },
       { parent := 0, environment := "staging", date := 150, message := "m2",
         server := "sb", logMessage := none, context := none, affectedUser := none }]
    nextId := 1 }

theorem c6_witness :
    (∀ v ∈ (getErrors sView ⟨none, some "staging", none, none⟩ 50 0).2, ∃ g,
      g ∈ sView.groups ∧ g.active = true ∧
      (∀ p, (⟨none, some "staging", none, none⟩ : Filters).project = some p →
        g.project = p) ∧ v.id = g.id ∧
      (sView.instances.filter (fun i => i.parent == g.id &&
        matchesFilters ⟨none, some "staging", none, none⟩ i)) ≠ [] ∧
      v.count = (sView.instances.filter (fun i => i.parent == g.id &&
        matchesFilters ⟨none, some "staging", none, none⟩ i)).length ∧
      v.lastOccurrence = maxDate (sView.instances.filter (fun i => i.parent == g.id &&
        matchesFilters ⟨none, some "staging", none, none⟩ i)) ∧
      (∀ x, x ∈ v.environments ↔
        x ∈ (sView.instances.filter (fun i => i.parent == g.id &&
          matchesFilters ⟨none, some "staging", none, none⟩ i)).map
          (fun i => i.environment)) ∧
      (∀ x, x ∈ v.servers ↔
        x ∈ (sView.instances.filter (fun i => i.parent == g.id &&
          matchesFilters ⟨none, some "staging", none, none⟩ i)).map
          (fun i => i.server))) ∧
    (∃ gs, gs.Perm (scopedActive sView ⟨none, some "staging", none, none⟩).2 ∧
      gs.Pairwise (fun a b => b.lastOccurrence ≤ a.lastOccurrence) ∧
      (getErrors sView ⟨none, some "staging", none, none⟩ 50 0).2 =
        ((filterErrors (scopedActive sView ⟨none, some "staging", none, none⟩).1 gs
          ⟨none, some "staging", none, none⟩).drop 0).take 50) :=
  c6_filtered_list sView ⟨none, some "staging", none, none⟩ 50 0 (by decide)
